import Mathlib

/-
A shallow embedding of the execution-context component (`context.go`) of a
command-line framework.  The context carries the resolved command path, the
raw and parsed arguments, a color capability and a lazily initialized output
sink, and offers accessors plus plain/JSON write helpers.

The parser collaborator (`parseArgv`, the `flagSet` producer) and the JSON
encoder (`json.Marshal` / `json.MarshalIndent`) are external to the provided
source; they are modeled as quantified function parameters over their
contract surface.  Output is modeled as state passing: every write operation
returns the updated context together with the list of chunks sent to the
sink, in order.
-/

namespace Cli

/-- Opaque stand-in for a Go `interface\x7b\x7d` value (the handler-supplied
destination object and the values handed to the JSON helpers). -/
structure GoAny where
  tag : Nat
deriving DecidableEq

/-- Opaque stand-in for the external `color.Color` capability value; it is
only copied and threaded around by the context. -/
structure Color where
  tag : Nat
deriving DecidableEq

/-- Stand-in for an `io.Writer` sink reference. -/
structure IOWriter where
  id : Nat
deriving DecidableEq

/-- The external constructor `colorable.NewColorableStdout()`: the colorized
wrap of the process's standard output, modeled as a fixed sink reference. -/
def colorableStdout : IOWriter := IOWriter.mk 0

/-- One parsed flag in the parser's flag table; the context only reads its
`actual` field (the recorded actual value of the flag). -/
structure Flag where
  actual : String
deriving DecidableEq

/-- The parser-collaborator state (`flagSet`), over the contract surface the
context uses: free positional arguments, the flag-name-to-flag table (the Go
map is modeled as an association list), URL-query-style values, and the
stored parse error (`none` means parsing succeeded). -/
structure FlagSet where
  args : List String
  flagMap : List (String × Flag)
  values : List (String × List String)
  err : Option String
deriving DecidableEq

/-- Modelled from the spec: `newFlagSet` lives in the parser collaborator,
whose source is not provided; per the spec, when `argv` is absent "the
context gets an empty parser state", so it is the empty parser state with no
error. -/
def newFlagSet : FlagSet :=
  { args := [], flagMap := [], values := [], err := none }

/-- The `Context` struct of `context.go`.  Go pointer/interface fields that
may be nil are `Option`; `color` is a value copy.  `HTTPRequest` and
`HTTPResponse` are opaque references stored verbatim. -/
structure Context where
  router : List String
  path : String
  argv : Option GoAny
  nativeArgs : List String
  flagSet : Option FlagSet
  command : Option GoAny
  writer : Option IOWriter
  color : Color
  HTTPRequest : Option GoAny
  HTTPResponse : Option GoAny
deriving DecidableEq

/-- `newContext(path, router, args, argv, clr)`: builds the context with an
empty parser state; if `argv` is present, parses the native args into it via
the parser collaborator `parseArgv` and fails with the parser's stored error
when there is one, returning no context. -/
def newContext (parseArgv : List String → GoAny → Color → FlagSet)
    (path : String) (router args : List String)
    (argv : Option GoAny) (clr : Color) : Except String Context :=
  let ctx : Context :=
    { path := path, router := router, argv := argv, nativeArgs := args,
      color := clr, flagSet := some newFlagSet, command := none,
      writer := none, HTTPRequest := none, HTTPResponse := none }
  match argv with
  | none => Except.ok ctx
  | some a =>
      let fs := parseArgv args a clr
      match fs.err with
      | some e => Except.error e
      | none => Except.ok { ctx with flagSet := some fs }

/-- Modelled from the spec: the dispatch code that calls `newContext` is not
part of the provided source; per the spec invariant, it supplies as `path`
exactly the router segments joined with single spaces. -/
def newContextFromRouter (parseArgv : List String → GoAny → Color → FlagSet)
    (router args : List String) (argv : Option GoAny) (clr : Color) :
    Except String Context :=
  newContext parseArgv (String.intercalate " " router) router args argv clr

/-- `Path()`: returns the full command name. -/
def Context.Path (ctx : Context) : String := ctx.path

/-- `Router()`: returns the full command name as a string array. -/
def Context.Router (ctx : Context) : List String := ctx.router

/-- `NativeArgs()`: returns the raw native args. -/
def Context.NativeArgs (ctx : Context) : List String := ctx.nativeArgs

/-- `Args()`: returns the free args of the parser state; `none` models the
nil-pointer fault of dereferencing an absent `flagSet`. -/
def Context.Args (ctx : Context) : Option (List String) :=
  ctx.flagSet.map (fun fs => fs.args)

/-- `NArg()`: returns the length of the parser state's free args; `none`
models the nil-pointer fault of dereferencing an absent `flagSet`. -/
def Context.NArg (ctx : Context) : Option Nat :=
  ctx.flagSet.map (fun fs => fs.args.length)

/-- `Argv()`: returns the parsed destination object (absent if none). -/
def Context.Argv (ctx : Context) : Option GoAny := ctx.argv

/-- `IsSet(flag)`: looks the name up in the parser's flag table; false if
absent, otherwise true iff the flag's recorded actual value is non-empty.
`none` models the nil-pointer fault of an absent `flagSet`. -/
def Context.IsSet (ctx : Context) (flag : String) : Option Bool :=
  ctx.flagSet.map (fun fs =>
    match fs.flagMap.lookup flag with
    | none => false
    | some fl => fl.actual != "")

/-- `FormValues()`: returns the parser state's URL-query-style values;
`none` models the process-terminating `debug.Panicf` branch taken when the
parser state is absent. -/
def Context.FormValues (ctx : Context) : Option (List (String × List String)) :=
  match ctx.flagSet with
  | none => none
  | some fs => some fs.values

/-- `Writer()`: returns the stored writer, materializing (and storing) the
colorized standard-output sink on first use. -/
def Context.Writer (ctx : Context) : IOWriter × Context :=
  match ctx.writer with
  | some w => (w, ctx)
  | none => (colorableStdout, { ctx with writer := some colorableStdout })

/-- `Write(data)`: raw passthrough to `Writer()`.  The byte count and write
error of the external sink are not modeled; the written chunk is recorded in
the output trace. -/
def Context.Write (ctx : Context) (data : String) : Context × List String :=
  let p := ctx.Writer
  (p.2, [data])

/-- The fragment of `fmt.Fprintf` format processing exercised by this file:
a format string applied to an empty argument list.  `%%` prints `%`, a verb
with no argument to consume prints `%!` plus the verb character plus
`(MISSING)`, and a trailing lone `%` prints `%!(NOVERB)`.  Format flags,
widths and precisions are not modeled; no call site here produces them. -/
def fprintfNoArgs : List Char → String
  | [] => ""
  | ['%'] => "%!(NOVERB)"
  | '%' :: '%' :: rest => "%" ++ fprintfNoArgs rest
  | '%' :: c :: rest => "%!" ++ String.mk [c] ++ "(MISSING)" ++ fprintfNoArgs rest
  | c :: rest => String.mk [c] ++ fprintfNoArgs rest

/-- `fmt.Fprintf`'s formatting of a format string with no further
arguments, on `String`. -/
def formatNoArgs (format : String) : String := fprintfNoArgs format.data

/-- Abbreviation for the string type, usable inside the `Context` namespace
once `Context.String` has been declared. -/
abbrev Str : Type := String

/-- `JSON(obj)`: serializes `obj` with the (external) compact JSON encoder
`marshal`; on success hands the encoded text to `fmt.Fprintf` as the format
string over `Writer()`, on failure writes nothing.  Always returns the
context. -/
def Context.JSON (marshal : GoAny → Option String) (ctx : Context)
    (obj : GoAny) : Context × List String :=
  match marshal obj with
  | some data =>
      let p := ctx.Writer
      (p.2, [formatNoArgs data])
  | none => (ctx, [])

/-- `JSONIndent(obj, pre, ind)`: like `JSON` but with the (external)
indented encoder `marshalIndent` applied to the per-line prefix `pre` and
indent unit `ind`. -/
def Context.JSONIndent (marshalIndent : GoAny → String → String → Option String)
    (ctx : Context) (obj : GoAny) (pre ind : String) : Context × List String :=
  match marshalIndent obj pre ind with
  | some data =>
      let p := ctx.Writer
      (p.2, [formatNoArgs data])
  | none => (ctx, [])

/-- `String(format, args...)` for a call with no variadic arguments (the
only form the JSON helpers use): formats and writes the result through
`Writer()` and returns the context for chaining. -/
def Context.String (ctx : Context) (format : Str) : Context × List Str :=
  let p := ctx.Writer
  (p.2, [formatNoArgs format])

/-- `JSONln(obj)`: `JSON(obj)` followed by writing a newline via `String`. -/
def Context.JSONln (marshal : GoAny → Option Str) (ctx : Context)
    (obj : GoAny) : Context × List Str :=
  let q := Context.JSON marshal ctx obj
  let r := q.1.String "\n"
  (r.1, q.2 ++ r.2)

/-- `JSONIndentln(obj, pre, ind)`: `JSONIndent` followed by writing a
newline via `String`. -/
def Context.JSONIndentln (marshalIndent : GoAny → Str → Str → Option Str)
    (ctx : Context) (obj : GoAny) (pre ind : Str) : Context × List Str :=
  let q := Context.JSONIndent marshalIndent ctx obj pre ind
  let r := q.1.String "\n"
  (r.1, q.2 ++ r.2)

/-- Fields of a context produced by a successful `newContext` call: every
field except `flagSet` is fixed by the inputs, and `flagSet` is present. -/
theorem newContext_ok_fields (p : List String → GoAny → Color → FlagSet)
    (path : String) (router args : List String) (argv : Option GoAny)
    (clr : Color) (ctx : Context)
    (h : newContext p path router args argv clr = Except.ok ctx) :
    ctx.path = path ∧ ctx.router = router ∧ ctx.argv = argv ∧
    ctx.nativeArgs = args ∧ ctx.color = clr ∧ ctx.writer = none ∧
    ∃ fs, ctx.flagSet = some fs := by
  cases argv with
  | none =>
      have h' := Except.ok.inj h
      subst h'
      exact ⟨rfl, rfl, rfl, rfl, rfl, rfl, newFlagSet, rfl⟩
  | some a =>
      simp only [newContext] at h
      cases he : (p args a clr).err with
      | some e =>
          rw [he] at h
          exact absurd h (by simp)
      | none =>
          rw [he] at h
          have h' := Except.ok.inj h
          subst h'
          exact ⟨rfl, rfl, rfl, rfl, rfl, rfl, p args a clr, rfl⟩

/-- A concrete parser whose stored error is set, used in witnesses. -/
def parseFail : List String → GoAny → Color → FlagSet :=
  fun _ _ _ => { args := [], flagMap := [], values := [], err := some "bad flag" }

/-- A concrete parser that succeeds, used in witnesses. -/
def parseOk : List String → GoAny → Color → FlagSet :=
  fun args _ _ =>
    { args := args, flagMap := [("a", Flag.mk "1"), ("b", Flag.mk "")],
      values := [("a", ["1"])], err := none }

/-- A concrete parser state with one set flag and one unset flag, used in
witnesses. -/
def fsW : FlagSet :=
  { args := ["abc", "xyz"], flagMap := [("a", Flag.mk "1"), ("b", Flag.mk "")],
    values := [("a", ["1"])], err := none }

/-- A concrete context, used in witnesses. -/
def ctxW : Context :=
  { router := ["hello", "world"], path := "hello world", argv := none,
    nativeArgs := ["-a=1", "abc", "xyz"], flagSet := some fsW,
    command := none, writer := none, color := Color.mk 0,
    HTTPRequest := none, HTTPResponse := none }

/-- Claim C1: for every parser, path, router, native-argument list, color and
present destination value, `newContext` fails with exactly the parser's
stored error when parsing fails, and otherwise returns the fully initialized
context whose parser state is the parse result. -/
theorem c1_newContext_parse (p : List String → GoAny → Color → FlagSet)
    (path : String) (router args : List String) (a : GoAny) (clr : Color) :
    (∀ e, (p args a clr).err = some e →
      newContext p path router args (some a) clr = Except.error e) ∧
    ((p args a clr).err = none →
      newContext p path router args (some a) clr = Except.ok
        { path := path, router := router, argv := some a, nativeArgs := args,
          color := clr, flagSet := some (p args a clr), command := none,
          writer := none, HTTPRequest := none, HTTPResponse := none }) := by
  constructor
  · intro e he
    simp only [newContext, he]
  · intro hn
    simp only [newContext, hn]

/-- Witness for C1: a failing parse surfaces the parser's error, and a
successful parse yields the fully initialized context. -/
theorem c1_newContext_parse_witness :
    newContext parseFail "p" [] [] (some (GoAny.mk 0)) (Color.mk 0)
      = Except.error "bad flag" ∧
    newContext parseOk "p" [] ["x"] (some (GoAny.mk 0)) (Color.mk 0)
      = Except.ok
        { path := "p", router := [], argv := some (GoAny.mk 0),
          nativeArgs := ["x"], color := Color.mk 0,
          flagSet := some (parseOk ["x"] (GoAny.mk 0) (Color.mk 0)),
          command := none, writer := none, HTTPRequest := none,
          HTTPResponse := none } :=
  ⟨(c1_newContext_parse parseFail "p" [] [] (GoAny.mk 0) (Color.mk 0)).1
      "bad flag" rfl,
   (c1_newContext_parse parseOk "p" [] ["x"] (GoAny.mk 0) (Color.mk 0)).2 rfl⟩

/-- Claim C2: on a context whose parser state is present, `IsSet(flag)` is
true iff the flag exists in the flag table with a non-empty recorded actual
value, and false iff the flag is unknown or its recorded actual value is
empty. -/
theorem c2_isSet_iff (ctx : Context) (fs : FlagSet) (flag : String)
    (h : ctx.flagSet = some fs) :
    (ctx.IsSet flag = some true ↔
      ∃ fl, fs.flagMap.lookup flag = some fl ∧ fl.actual ≠ "") ∧
    (ctx.IsSet flag = some false ↔
      fs.flagMap.lookup flag = none ∨
      ∃ fl, fs.flagMap.lookup flag = some fl ∧ fl.actual = "") := by
  cases hl : fs.flagMap.lookup flag with
  | none => simp [Context.IsSet, h, hl]
  | some fl =>
      by_cases ha : fl.actual = ""
      · simp [Context.IsSet, h, hl, ha]
      · simp [Context.IsSet, h, hl, ha]

/-- Witness for C2: in the concrete context, flag `a` (recorded value `1`)
is set, flag `b` (recorded value empty) is not. -/
theorem c2_isSet_iff_witness :
    ctxW.IsSet "a" = some true ∧ ctxW.IsSet "b" = some false :=
  ⟨((c2_isSet_iff ctxW fsW "a" rfl).1).2 ⟨Flag.mk "1", by decide, by decide⟩,
   ((c2_isSet_iff ctxW fsW "b" rfl).2).2
      (Or.inr ⟨Flag.mk "", by decide, by decide⟩)⟩

/-- The compact JSON encoder at the C3 failing input: the Go value is the
string `%d`, whose compact JSON encoding is the quoted text `"%d"`;
serialization succeeds. -/
def marshalPct : GoAny → Option String := fun _ => some "\"%d\""

/-- A failing compact encoder, used in witnesses (models e.g. a cyclic value
that `json.Marshal` rejects). -/
def marshalNone : GoAny → Option String := fun _ => none

/-- A failing indented encoder, used in witnesses. -/
def marshalIndentNone : GoAny → String → String → Option String :=
  fun _ _ _ => none

/-- Claim C3 (code bug): `JSON` hands the encoded text to `fmt.Fprintf` as
the format string, so an encoding containing a `%` verb is mangled.  At a
value whose compact encoding is the five characters `"%d"` (quotes
included), the single chunk written is `"%!d(MISSING)"`, which is not the
encoding. -/
theorem c3_json_mangles_percent :
    (Context.JSON marshalPct ctxW (GoAny.mk 0)).2 = ["\"%!d(MISSING)\""] ∧
    ("\"%!d(MISSING)\"" : String) ≠ "\"%d\"" := by
  constructor
  · rfl
  · decide

/-- Claim C4: when serialization fails, `JSON` (and likewise `JSONIndent`)
writes nothing and surfaces no error: the result is exactly the unchanged
context paired with an empty output trace. -/
theorem c4_json_marshal_error_skip (m : GoAny → Option String)
    (mi : GoAny → String → String → Option String) (ctx : Context)
    (obj : GoAny) (pre ind : String)
    (hm : m obj = none) (hmi : mi obj pre ind = none) :
    Context.JSON m ctx obj = (ctx, []) ∧
    Context.JSONIndent mi ctx obj pre ind = (ctx, []) := by
  constructor
  · simp only [Context.JSON, hm]
  · simp only [Context.JSONIndent, hmi]

/-- Witness for C4: concrete failing encoders leave the concrete context
untouched and write nothing. -/
theorem c4_json_marshal_error_skip_witness :
    Context.JSON marshalNone ctxW (GoAny.mk 0) = (ctxW, []) ∧
    Context.JSONIndent marshalIndentNone ctxW (GoAny.mk 0) "" "  " = (ctxW, []) :=
  c4_json_marshal_error_skip marshalNone marshalIndentNone ctxW (GoAny.mk 0)
    "" "  " rfl rfl

/-- The context returned by `Writer()` is the receiver, with the writer
field initialized when it was absent. -/
theorem writer_snd_cases (c : Context) :
    (c.writer = none ∧ c.Writer.2 = { c with writer := some colorableStdout }) ∨
    (∃ w, c.writer = some w ∧ c.Writer.2 = c) := by
  cases hw : c.writer with
  | none => exact Or.inl ⟨rfl, by simp [Context.Writer, hw]⟩
  | some w => exact Or.inr ⟨w, rfl, by simp [Context.Writer, hw]⟩

/-- The context returned by `String` is the receiver, up to lazy writer
initialization. -/
theorem string_fst_cases (c : Context) (f : String) :
    (c.String f).1 = c ∨
    (c.String f).1 = { c with writer := some colorableStdout } := by
  cases hw : c.writer with
  | none => right; simp [Context.String, Context.Writer, hw]
  | some w => left; simp [Context.String, Context.Writer, hw]

/-- The context returned by `Write` is the receiver, up to lazy writer
initialization. -/
theorem write_fst_cases (c : Context) (d : String) :
    (c.Write d).1 = c ∨
    (c.Write d).1 = { c with writer := some colorableStdout } := by
  cases hw : c.writer with
  | none => right; simp [Context.Write, Context.Writer, hw]
  | some w => left; simp [Context.Write, Context.Writer, hw]

/-- The context returned by `JSON` is the receiver, up to lazy writer
initialization. -/
theorem json_fst_cases (m : GoAny → Option String) (c : Context) (o : GoAny) :
    (Context.JSON m c o).1 = c ∨
    (Context.JSON m c o).1 = { c with writer := some colorableStdout } := by
  cases hm : m o with
  | none => left; simp [Context.JSON, hm]
  | some d =>
      cases hw : c.writer with
      | none => right; simp [Context.JSON, hm, Context.Writer, hw]
      | some w => left; simp [Context.JSON, hm, Context.Writer, hw]

/-- The context returned by `JSONIndent` is the receiver, up to lazy writer
initialization. -/
theorem jsonIndent_fst_cases (mi : GoAny → String → String → Option String)
    (c : Context) (o : GoAny) (pre ind : String) :
    (Context.JSONIndent mi c o pre ind).1 = c ∨
    (Context.JSONIndent mi c o pre ind).1
      = { c with writer := some colorableStdout } := by
  cases hm : mi o pre ind with
  | none => left; simp [Context.JSONIndent, hm]
  | some d =>
      cases hw : c.writer with
      | none => right; simp [Context.JSONIndent, hm, Context.Writer, hw]
      | some w => left; simp [Context.JSONIndent, hm, Context.Writer, hw]

/-- Overwriting the writer field twice with the same sink is the same as
once. -/
theorem writer_update_idem (c : Context) :
    ({ { c with writer := some colorableStdout } with
        writer := some colorableStdout } : Context)
      = { c with writer := some colorableStdout } := rfl

/-- The context returned by `JSONln` is the one `String` returns on the
context `JSON` returned. -/
theorem jsonln_fst_eq (m : GoAny → Option String) (c : Context) (o : GoAny) :
    (Context.JSONln m c o).1 = ((Context.JSON m c o).1.String "\n").1 := rfl

/-- The context returned by `JSONIndentln` is the one `String` returns on
the context `JSONIndent` returned. -/
theorem jsonIndentln_fst_eq (mi : GoAny → String → String → Option String)
    (c : Context) (o : GoAny) (pre ind : String) :
    (Context.JSONIndentln mi c o pre ind).1
      = ((Context.JSONIndent mi c o pre ind).1.String "\n").1 := rfl

/-- The context returned by `JSONln` is the receiver, up to lazy writer
initialization. -/
theorem jsonln_fst_cases (m : GoAny → Option String) (c : Context) (o : GoAny) :
    (Context.JSONln m c o).1 = c ∨
    (Context.JSONln m c o).1 = { c with writer := some colorableStdout } := by
  rw [jsonln_fst_eq]
  rcases json_fst_cases m c o with h | h <;> rw [h]
  · exact string_fst_cases c "\n"
  · rcases string_fst_cases { c with writer := some colorableStdout } "\n"
      with h2 | h2 <;> rw [h2]
    · exact Or.inr rfl
    · exact Or.inr (writer_update_idem c)

/-- The context returned by `JSONIndentln` is the receiver, up to lazy
writer initialization. -/
theorem jsonIndentln_fst_cases (mi : GoAny → String → String → Option String)
    (c : Context) (o : GoAny) (pre ind : String) :
    (Context.JSONIndentln mi c o pre ind).1 = c ∨
    (Context.JSONIndentln mi c o pre ind).1
      = { c with writer := some colorableStdout } := by
  rw [jsonIndentln_fst_eq]
  rcases jsonIndent_fst_cases mi c o pre ind with h | h <;> rw [h]
  · exact string_fst_cases c "\n"
  · rcases string_fst_cases { c with writer := some colorableStdout } "\n"
      with h2 | h2 <;> rw [h2]
    · exact Or.inr rfl
    · exact Or.inr (writer_update_idem c)

/-- The concrete context produced by constructing with router
`["hello", "world"]` and an absent destination value, used in witnesses. -/
def ctxN : Context :=
  { router := ["hello", "world"], path := "hello world", argv := none,
    nativeArgs := [], flagSet := some newFlagSet, command := none,
    writer := none, color := Color.mk 0, HTTPRequest := none,
    HTTPResponse := none }

/-- Claim C5: a context produced by successful construction (through the
dispatch path, which supplies the joined router segments as the path) has
its stored path equal to its stored router joined with single spaces, and no
context-returning operation changes either field. -/
theorem c5_path_router_consistent (p : List String → GoAny → Color → FlagSet)
    (router args : List String) (argv : Option GoAny) (clr : Color)
    (ctx : Context)
    (h : newContextFromRouter p router args argv clr = Except.ok ctx) :
    ctx.path = String.intercalate " " ctx.router ∧
    (∀ c : Context,
      (c.Writer.2.path = c.path ∧ c.Writer.2.router = c.router) ∧
      (∀ d, (c.Write d).1.path = c.path ∧ (c.Write d).1.router = c.router) ∧
      (∀ f, (c.String f).1.path = c.path ∧ (c.String f).1.router = c.router) ∧
      (∀ m o, (Context.JSON m c o).1.path = c.path ∧
        (Context.JSON m c o).1.router = c.router) ∧
      (∀ m o, (Context.JSONln m c o).1.path = c.path ∧
        (Context.JSONln m c o).1.router = c.router) ∧
      (∀ mi o pre ind,
        (Context.JSONIndent mi c o pre ind).1.path = c.path ∧
        (Context.JSONIndent mi c o pre ind).1.router = c.router) ∧
      (∀ mi o pre ind,
        (Context.JSONIndentln mi c o pre ind).1.path = c.path ∧
        (Context.JSONIndentln mi c o pre ind).1.router = c.router)) := by
  unfold newContextFromRouter at h
  constructor
  · obtain ⟨hp, hr, -, -, -, -, -⟩ :=
      newContext_ok_fields p (String.intercalate " " router) router args argv
        clr ctx h
    rw [hp, hr]
  · intro c
    refine ⟨?_, ?_, ?_, ?_, ?_, ?_, ?_⟩
    · rcases writer_snd_cases c with ⟨-, h2⟩ | ⟨w, -, h2⟩ <;> rw [h2] <;>
        exact ⟨rfl, rfl⟩
    · intro d
      rcases write_fst_cases c d with h2 | h2 <;> rw [h2] <;> exact ⟨rfl, rfl⟩
    · intro f
      rcases string_fst_cases c f with h2 | h2 <;> rw [h2] <;> exact ⟨rfl, rfl⟩
    · intro m o
      rcases json_fst_cases m c o with h2 | h2 <;> rw [h2] <;> exact ⟨rfl, rfl⟩
    · intro m o
      rcases jsonln_fst_cases m c o with h2 | h2 <;> rw [h2] <;>
        exact ⟨rfl, rfl⟩
    · intro mi o pre ind
      rcases jsonIndent_fst_cases mi c o pre ind with h2 | h2 <;> rw [h2] <;>
        exact ⟨rfl, rfl⟩
    · intro mi o pre ind
      rcases jsonIndentln_fst_cases mi c o pre ind with h2 | h2 <;> rw [h2] <;>
        exact ⟨rfl, rfl⟩

/-- Witness for C5: the concretely constructed context has path
`"hello world"` for router `["hello", "world"]`. -/
theorem c5_path_router_consistent_witness :
    ctxN.path = String.intercalate " " ctxN.router :=
  (c5_path_router_consistent parseOk ["hello", "world"] [] none (Color.mk 0)
    ctxN rfl).1

/-- Claim C6: on a context with no writer set, `Writer()` materializes the
colorized standard-output sink and stores it; a subsequent call returns the
same sink and leaves the context unchanged; and `Write`, `String` and a
successful `JSON` all route through (and install) that same shared sink. -/
theorem c6_writer_lazy_singleton (ctx : Context) (h : ctx.writer = none) :
    ctx.Writer = (colorableStdout, { ctx with writer := some colorableStdout }) ∧
    ({ ctx with writer := some colorableStdout } : Context).Writer
      = (colorableStdout, { ctx with writer := some colorableStdout }) ∧
    (∀ d, (ctx.Write d).1 = { ctx with writer := some colorableStdout }) ∧
    (∀ f, (ctx.String f).1 = { ctx with writer := some colorableStdout }) ∧
    (∀ m o d, m o = some d →
      (Context.JSON m ctx o).1 = { ctx with writer := some colorableStdout }) := by
  refine ⟨?_, ?_, ?_, ?_, ?_⟩
  · simp [Context.Writer, h]
  · simp [Context.Writer]
  · intro d
    simp [Context.Write, Context.Writer, h]
  · intro f
    simp [Context.String, Context.Writer, h]
  · intro m o d hm
    simp [Context.JSON, hm, Context.Writer, h]

/-- Witness for C6: the first `Writer()` call on the concrete context
returns and stores the colorized standard-output sink. -/
theorem c6_writer_lazy_singleton_witness :
    ctxW.Writer = (colorableStdout, { ctxW with writer := some colorableStdout }) :=
  (c6_writer_lazy_singleton ctxW rfl).1

/-- Claim C7: with an absent destination value, construction always
succeeds, never invokes parsing (the result does not depend on the parser),
and yields a context whose parser state is the non-absent empty state with
empty free args. -/
theorem c7_newContext_absent_argv (p q : List String → GoAny → Color → FlagSet)
    (path : String) (router args : List String) (clr : Color) :
    newContext p path router args none clr
      = newContext q path router args none clr ∧
    ∃ ctx, newContext p path router args none clr = Except.ok ctx ∧
      ctx.flagSet = some newFlagSet ∧ ctx.Args = some [] :=
  ⟨rfl, ⟨_, rfl, rfl, rfl⟩⟩

/-- Claim C8: `NArg()` equals the length of the sequence `Args()` returns
(both read the parser state's free args, and both fault together on an
absent parser state). -/
theorem c8_nArg_length_args (ctx : Context) :
    ctx.NArg = Option.map List.length ctx.Args := by
  cases h : ctx.flagSet <;> simp [Context.NArg, Context.Args, h]

/-- Claim C9: any context produced by successful construction has a present
parser state, so `FormValues` cannot hit the process-terminating guard and
returns the parser state's URL-query-style values. -/
theorem c9_formValues_no_panic (p : List String → GoAny → Color → FlagSet)
    (path : String) (router args : List String) (argv : Option GoAny)
    (clr : Color) (ctx : Context)
    (h : newContext p path router args argv clr = Except.ok ctx) :
    ctx.FormValues ≠ none ∧
    ∃ fs, ctx.flagSet = some fs ∧ ctx.FormValues = some fs.values := by
  obtain ⟨-, -, -, -, -, -, fs, hfs⟩ :=
    newContext_ok_fields p path router args argv clr ctx h
  refine ⟨?_, fs, hfs, ?_⟩ <;> simp [Context.FormValues, hfs]

/-- Witness for C9: the concretely constructed context does not hit the
`FormValues` guard. -/
theorem c9_formValues_no_panic_witness : ctxN.FormValues ≠ none :=
  (c9_formValues_no_panic parseOk "hello world" ["hello", "world"] [] none
    (Color.mk 0) ctxN rfl).1

/-- Claim C10: each of `JSON`, `JSONln`, `JSONIndent` and `JSONIndentln`
returns the very context it was called on — unchanged except for lazy
initialization of the shared writer — whether serialization succeeds or
fails, and surfaces no error. -/
theorem c10_json_returns_receiver (m : GoAny → Option String)
    (mi : GoAny → String → String → Option String) (ctx : Context)
    (obj : GoAny) (pre ind : String) :
    ((Context.JSON m ctx obj).1 = ctx ∨
      (Context.JSON m ctx obj).1 = { ctx with writer := some colorableStdout }) ∧
    ((Context.JSONln m ctx obj).1 = ctx ∨
      (Context.JSONln m ctx obj).1 = { ctx with writer := some colorableStdout }) ∧
    ((Context.JSONIndent mi ctx obj pre ind).1 = ctx ∨
      (Context.JSONIndent mi ctx obj pre ind).1
        = { ctx with writer := some colorableStdout }) ∧
    ((Context.JSONIndentln mi ctx obj pre ind).1 = ctx ∨
      (Context.JSONIndentln mi ctx obj pre ind).1
        = { ctx with writer := some colorableStdout }) :=
  ⟨json_fst_cases m ctx obj, jsonln_fst_cases m ctx obj,
   jsonIndent_fst_cases mi ctx obj pre ind,
   jsonIndentln_fst_cases mi ctx obj pre ind⟩

end Cli
